import Mathlib

/-!
Verification development for the crop-annotate image editor.

The JavaScript sources (`src/editor.js`, `src/canvas.js`, `src/tools.js`)
are shallowly embedded below.  Numbers are modelled by `ℚ` (the source uses
JS doubles; every operation the claims exercise is exact rational
arithmetic, with `Math.hypot` comparisons rephrased as equivalent
squared-distance comparisons).  Pixel contents of the raster surface are
modelled by the abstract `CanvasContent` inductive, which records exactly
the provenance of each canvas encoding the code can produce.  JS object
mutation is modelled by explicit state passing.
-/

/-- Tool names of the editor (`'select' | 'crop' | 'pencil' | 'arrow' |
'rect' | 'circle' | 'text' | 'highlight'`).  An annotation object's `type`
field holds the tool that created it. -/
inductive ToolName where
  | select
  | crop
  | pencil
  | arrow
  | rect
  | circle
  | text
  | highlight
  deriving DecidableEq, Repr, Inhabited

/-- A 2-D point (mouse positions, freehand stroke vertices). -/
structure Point where
  x : ℚ
  y : ℚ
  deriving DecidableEq, Repr, Inhabited

/-- An annotation object, as built by `ToolManager.onMouseDown` /
`createNewText` in `src/tools.js`.  JS objects are dictionaries; we give
one record with every field the code ever reads, with the source's
defaults.  `textId` models the lazily assigned `_textId` property
(`none` = not yet assigned). -/
structure AnnObject where
  type : ToolName
  x : ℚ := 0
  y : ℚ := 0
  w : ℚ := 0
  h : ℚ := 0
  color : String := ""
  width : ℚ := 0
  points : List Point := []
  text : String := ""
  fontSize : ℚ := 24
  textId : Option String := none
  deriving DecidableEq, Repr, Inhabited

/-- Abstract pixel content of a canvas / decoded image.  `fromSrc` is an
image decoded from an external URI; `cropOf base objs cw ch nx ny nw nh`
is the data URL produced by `CanvasManager.crop`: the region
`(nx, ny, nw, nh)` extracted from a `cw × ch` surface showing `base` with
`objs` rendered on top. -/
inductive CanvasContent where
  | blank
  | fromSrc (s : String)
  | cropOf (base : CanvasContent) (objs : List AnnObject)
      (cw ch nx ny nw nh : ℚ)
  deriving DecidableEq, Repr, Inhabited

/-- A history entry (`saveHistory` in `src/editor.js`): deep copy of the
object list, the image's source, and the canvas pixel dimensions. -/
structure Snapshot where
  objects : List AnnObject
  imageSrc : Option CanvasContent
  canvasWidth : ℚ
  canvasHeight : ℚ
  deriving DecidableEq, Repr, Inhabited

/-- The editor's mutable state (`this.state` of `CropAnnotate` in
`src/editor.js`, together with the canvas dimensions, the zoom level and
the container's client size held by `CanvasManager`). -/
structure EditorState where
  image : Option CanvasContent := none
  currentTool : ToolName := .select
  currentColor : String := ""
  objects : List AnnObject := []
  history : List Snapshot := []
  historyIndex : Int := -1
  activeObject : Option AnnObject := none
  isDrawing : Bool := false
  isEditingText : Bool := false
  selectedObject : Option AnnObject := none
  canvasWidth : ℚ := 0
  canvasHeight : ℚ := 0
  containerWidth : ℚ := 0
  containerHeight : ℚ := 0
  zoomLevel : ℚ := 1
  optFontSize : ℚ := 24
  deriving DecidableEq, Repr, Inhabited

/-- JS `Array.prototype.slice(0, e)`: a nonnegative end index takes a
prefix, a negative end index counts from the end of the array. -/
def jsSliceTo (l : List α) (e : Int) : List α :=
  if 0 ≤ e then l.take e.toNat else l.take ((l.length : Int) + e).toNat

/-- Accumulator pass of `jsSplit`. -/
def jsSplitAux (sep : Char) : List Char → List Char → List String
  | [], acc => [String.mk acc.reverse]
  | c :: rest, acc =>
      if c = sep then String.mk acc.reverse :: jsSplitAux sep rest []
      else jsSplitAux sep rest (c :: acc)

/-- JS `String.prototype.split` with a single-character separator:
`n` separator occurrences yield `n + 1` parts (parts may be empty). -/
def jsSplit (s : String) (sep : Char) : List String :=
  jsSplitAux sep s.toList []

/-- The whitespace JS `String.prototype.trim` strips (restricted to the
ASCII whitespace any claim exercises). -/
def jsWhitespace (c : Char) : Bool :=
  c == ' ' || c == '\t' || c == '\n' || c == '\r'

/-- JS `String.prototype.trim`: strip whitespace from both ends. -/
def jsTrim (s : String) : String :=
  String.mk (((s.toList.dropWhile jsWhitespace).reverse.dropWhile
    jsWhitespace).reverse)

/-- `this.minZoom` of `CanvasManager`. -/
def minZoom : ℚ := 1/10

/-- `this.maxZoom` of `CanvasManager`. -/
def maxZoom : ℚ := 5

/-- The clamp `Math.max(this.minZoom, Math.min(this.maxZoom, level))`
performed by `CanvasManager.setZoom`. -/
def clampZoom (level : ℚ) : ℚ := max minZoom (min maxZoom level)

/-- `CanvasManager.setZoom`: clamps the requested level and, when the
clamped value differs from the current one, stores it and invokes the
registered `onZoomChange` callback with the new level.  Returns the new
zoom level together with the callback invocation (`some payload` when the
callback fired, `none` otherwise). -/
def setZoom (current level : ℚ) : ℚ × Option ℚ :=
  let newZoom := clampZoom level
  if newZoom ≠ current then (newZoom, some newZoom) else (current, none)

/-- `CanvasManager.zoomIn`: step the current level by +0.25, then clamp. -/
def zoomIn (current : ℚ) : ℚ × Option ℚ := setZoom current (current + 1/4)

/-- `CanvasManager.zoomOut`: step the current level by -0.25, then clamp. -/
def zoomOut (current : ℚ) : ℚ × Option ℚ := setZoom current (current - 1/4)

/-- `CanvasManager.resetZoom`. -/
def resetZoom (current : ℚ) : ℚ × Option ℚ := setZoom current 1

/-- `this.editor.container.clientWidth || 800` in `zoomToFit` (JS `||`
turns a zero client width into the 800 fallback). -/
def containerDimW (s : EditorState) : ℚ :=
  if s.containerWidth = 0 then 800 else s.containerWidth

/-- `this.editor.container.clientHeight || 600` in `zoomToFit`. -/
def containerDimH (s : EditorState) : ℚ :=
  if s.containerHeight = 0 then 600 else s.containerHeight

/-- The fit level computed by `CanvasManager.zoomToFit`:
`Math.min(containerWidth / canvas.width, containerHeight / canvas.height, 1)`. -/
def zoomToFitLevel (s : EditorState) : ℚ :=
  min (min (containerDimW s / s.canvasWidth) (containerDimH s / s.canvasHeight)) 1

/-- `CanvasManager.zoomToFit` applied to the editor state (the zoom-change
callback payload is irrelevant to the state and dropped here). -/
def zoomToFitState (s : EditorState) : EditorState :=
  { s with zoomLevel := (setZoom s.zoomLevel (zoomToFitLevel s)).1 }

/-- The snapshot captured by `CropAnnotate.saveHistory`: deep copies of
the object list (JSON round-trip = identity on our pure data), the image
source and the canvas dimensions. -/
def mkSnapshot (s : EditorState) : Snapshot :=
  { objects := s.objects
    imageSrc := s.image
    canvasWidth := s.canvasWidth
    canvasHeight := s.canvasHeight }

/-- `CropAnnotate.saveHistory`: truncate the history at the cursor
(`slice(0, historyIndex + 1)`), push the snapshot, advance the cursor. -/
def saveHistory (s : EditorState) : EditorState :=
  { s with
      history := jsSliceTo s.history (s.historyIndex + 1) ++ [mkSnapshot s]
      historyIndex := s.historyIndex + 1 }

/-- `CropAnnotate.canUndo`: `historyIndex > 0`. -/
def canUndo (s : EditorState) : Bool := 0 < s.historyIndex

/-- `CropAnnotate.canRedo`: `historyIndex < history.length - 1`. -/
def canRedo (s : EditorState) : Bool :=
  s.historyIndex < (s.history.length : Int) - 1

/-- `CropAnnotate.restoreFromHistory` followed by
`CanvasManager.restoreState` (successful-decode path): replace the object
list with the snapshot's, clear the selection, and — when the snapshot
carries an image source — replace the image; in both cases resize the
canvas to the snapshot's dimensions, re-fit the zoom and re-render. -/
def restoreFromHistory (s : EditorState) : EditorState :=
  let snap := s.history.getD s.historyIndex.toNat default
  let s1 := { s with objects := snap.objects, selectedObject := none }
  let s2 :=
    match snap.imageSrc with
    | some src =>
        { s1 with image := some src, canvasWidth := snap.canvasWidth,
                  canvasHeight := snap.canvasHeight }
    | none =>
        { s1 with canvasWidth := snap.canvasWidth,
                  canvasHeight := snap.canvasHeight }
  zoomToFitState s2

/-- `CropAnnotate.undo`: no-op unless `historyIndex > 0`. -/
def undo (s : EditorState) : EditorState :=
  if 0 < s.historyIndex then
    restoreFromHistory { s with historyIndex := s.historyIndex - 1 }
  else s

/-- `CropAnnotate.redo`: no-op unless `historyIndex < history.length - 1`. -/
def redo (s : EditorState) : EditorState :=
  if s.historyIndex < (s.history.length : Int) - 1 then
    restoreFromHistory { s with historyIndex := s.historyIndex + 1 }
  else s

/-- `undo` iterated. -/
def undoTimes : Nat → EditorState → EditorState
  | 0, s => s
  | n + 1, s => undoTimes n (undo s)

/-- `CropAnnotate.loadImage` (successful-decode path): store the image,
reset objects and history, resize the canvas to the image
(`resizeToImage`, which re-fits the zoom), save the initial history
entry, render. -/
def loadImage (s : EditorState) (img : CanvasContent) (imgW imgH : ℚ) :
    EditorState :=
  let s1 := { s with image := some img, objects := [], history := [],
                     historyIndex := -1 }
  let s2 := zoomToFitState
    { s1 with canvasWidth := imgW, canvasHeight := imgH }
  saveHistory s2

/-- Normalized left edge of a signed rect (`rect.w < 0 ? rect.x + rect.w
: rect.x` in `CanvasManager.crop`). -/
def cropNormX (r : AnnObject) : ℚ := if r.w < 0 then r.x + r.w else r.x

/-- Normalized top edge of a signed rect. -/
def cropNormY (r : AnnObject) : ℚ := if r.h < 0 then r.y + r.h else r.y

/-- `CanvasManager.crop` (with the asynchronous `onload` mutation run to
completion): normalize the signed rect; abandon silently when either
extent is below the 10-pixel floor; otherwise extract the region from the
current surface into a new image, clear all objects, resize the canvas to
the extents, re-fit the zoom and save one history entry. -/
def crop (s : EditorState) (rect : AnnObject) : EditorState :=
  let nx := cropNormX rect
  let ny := cropNormY rect
  let nw := |rect.w|
  let nh := |rect.h|
  if nw < 10 ∨ nh < 10 then s
  else
    let newImg := CanvasContent.cropOf (s.image.getD .blank) s.objects
      s.canvasWidth s.canvasHeight nx ny nw nh
    let s1 := { s with image := some newImg, objects := [],
                       canvasWidth := nw, canvasHeight := nh }
    saveHistory (zoomToFitState s1)

/-- `ToolManager.isValidObject`: a pencil stroke needs more than one
point, a text object a non-empty (untrimmed) string, every other shape
`|w| > 2` or `|h| > 2`. -/
def isValidObject (obj : AnnObject) : Bool :=
  if obj.type = ToolName.pencil then decide (obj.points.length > 1)
  else if obj.type = ToolName.text then decide (obj.text.length > 0)
  else decide (|obj.w| > 2) || decide (|obj.h| > 2)

/-- `ToolManager.onMouseUp` (`tmDragging` is the manager's private
`isDragging` flag): with the select tool, a finished drag commits a
snapshot; with a drawing tool, a crop-kind active object is handed to
`CanvasManager.crop`, any other active object is pushed and a snapshot
saved only when valid; the drawing flags are always cleared. -/
def onMouseUp (s : EditorState) (tmDragging : Bool) : EditorState :=
  if s.currentTool = ToolName.select then
    if tmDragging then saveHistory s else s
  else if s.isDrawing = false then s
  else
    let s1 :=
      match s.activeObject with
      | none => s
      | some obj =>
          if obj.type = ToolName.crop then crop s obj
          else if isValidObject obj then
            saveHistory { s with objects := s.objects ++ [obj] }
          else s
    { s1 with isDrawing := false, activeObject := none }

/-- The `finish` closure of `ToolManager.createNewText`: when the typed
value trims non-empty, push a new text object and save a snapshot;
otherwise discard; either way clear the drawing flag. -/
def createNewTextFinish (s : EditorState) (pos : Point) (value : String) :
    EditorState :=
  if jsTrim value ≠ "" then
    let obj : AnnObject :=
      { type := ToolName.text, x := pos.x, y := pos.y, text := value,
        color := s.currentColor, fontSize := s.optFontSize }
    let s1 := saveHistory { s with objects := s.objects ++ [obj] }
    { s1 with isDrawing := false }
  else { s with isDrawing := false }

/-- `Math.sign`. -/
def mathSign (x : ℚ) : ℚ := if 0 < x then 1 else if x < 0 then -1 else 0

/-- JS `x || 1` on a number: `1` when `x` is `0` (falsy), else `x`. -/
def orOne (x : ℚ) : ℚ := if x = 0 then 1 else x

/-- The aspect-ratio constraint applied by `ToolManager.onMouseMove` for
the crop tool (`src/tools.js` lines 75–96), given the constraint's
`width`/`height` and the raw drag deltas `dx = pos.x - startPos.x`,
`dy = pos.y - startPos.y`.  Returns the constrained `(w, h)` stored in
the active object. -/
def constrainCropDelta (rw rh dx dy : ℚ) : ℚ × ℚ :=
  let target := rw / rh
  let w := dx
  let h := dy
  let absW := |w|
  let absH := |h|
  if absW / target > absH then (w, (absW / target) * mathSign (orOne h))
  else ((absH * target) * mathSign (orOne w), h)

/-- The fixed hit-testing tolerance (`const padding = 10` in
`ToolManager.isPointInObject`). -/
def hitPadding : ℚ := 10

/-- Bounding box as returned by `CanvasManager.getTextBounds`.  The
rendered line widths come from the surface's text measurement, which we
abstract as the parameter `measure fontSize line`. -/
structure TextBox where
  x : ℚ
  y : ℚ
  width : ℚ
  height : ℚ
  deriving DecidableEq, Repr

/-- `CanvasManager.getTextBounds`: the box starts one font size above the
anchor (text baseline), is as wide as the widest measured line, and
`lineCount * fontSize * 1.2` tall.  `obj.fontSize || 24` maps a zero font
size to 24. -/
def getTextBounds (measure : ℚ → String → ℚ) (obj : AnnObject) : TextBox :=
  let fs := if obj.fontSize = 0 then 24 else obj.fontSize
  let lines := jsSplit obj.text '\n'
  let lineHeight := fs * (6/5)
  let maxWidth := lines.foldl (fun m l => max m (measure fs l)) 0
  { x := obj.x, y := obj.y - fs, width := maxWidth,
    height := (lines.length : ℚ) * lineHeight }

/-- `ToolManager.distToSegment`, squared: the source compares
`Math.hypot`-distances against the tolerance; we keep squared distances,
an exact equivalent over nonnegative quantities. -/
def distToSegmentSq (p v w : Point) : ℚ :=
  let l2 := (v.x - w.x)^2 + (v.y - w.y)^2
  if l2 = 0 then (p.x - v.x)^2 + (p.y - v.y)^2
  else
    let t0 := ((p.x - v.x) * (w.x - v.x) + (p.y - v.y) * (w.y - v.y)) / l2
    let t := max 0 (min 1 t0)
    (p.x - (v.x + t * (w.x - v.x)))^2 + (p.y - (v.y + t * (w.y - v.y)))^2

/-- `ToolManager.isPointInObject`: a pencil stroke is hit when any vertex
lies within the tolerance radius; a text object when the point is inside
its measured box expanded by the tolerance; an arrow when the squared
distance to its segment is below the squared tolerance; every other shape
when the point is inside its normalized bounding box expanded by the
tolerance. -/
def isPointInObject (measure : ℚ → String → ℚ) (pos : Point)
    (obj : AnnObject) : Bool :=
  if obj.type = ToolName.pencil then
    obj.points.any fun p =>
      decide ((p.x - pos.x)^2 + (p.y - pos.y)^2 < hitPadding^2)
  else if obj.type = ToolName.text then
    let b := getTextBounds measure obj
    decide (b.x - hitPadding ≤ pos.x ∧ pos.x ≤ b.x + b.width + hitPadding ∧
      b.y - hitPadding ≤ pos.y ∧ pos.y ≤ b.y + b.height + hitPadding)
  else if obj.type = ToolName.arrow then
    decide (distToSegmentSq pos ⟨obj.x, obj.y⟩
      ⟨obj.x + obj.w, obj.y + obj.h⟩ < hitPadding^2)
  else
    let x := if obj.w < 0 then obj.x + obj.w else obj.x
    let y := if obj.h < 0 then obj.y + obj.h else obj.y
    let w := |obj.w|
    let h := |obj.h|
    decide (x - hitPadding ≤ pos.x ∧ pos.x ≤ x + w + hitPadding ∧
      y - hitPadding ≤ pos.y ∧ pos.y ≤ y + h + hitPadding)

/-- `ToolManager.findObjectAt`: scan a reversed copy of the object list
(most recently added first) and return the first hit, or none. -/
def findObjectAt (measure : ℚ → String → ℚ) (objects : List AnnObject)
    (pos : Point) : Option AnnObject :=
  objects.reverse.find? (isPointInObject measure pos)

/-- Substitution step of `CropAnnotate.exportWithTranslations`: a text
object whose assigned `_textId` is truthy and maps to a truthy (non-empty)
translation gets that translation as its text; every other object is left
untouched.  The translation map for one language is an association list
(JS object). -/
def applyTranslation (tmap : List (String × String)) (obj : AnnObject) :
    AnnObject :=
  if obj.type = ToolName.text then
    match obj.textId with
    | some tid =>
        if tid ≠ "" then
          match List.lookup tid tmap with
          | some tr => if tr ≠ "" then { obj with text := tr } else obj
          | none => obj
        else obj
    | none => obj
  else obj

/-- Restore step of `exportWithTranslations`: each object gets its
original text back (the source only writes back the texts it stored in
`originalTexts`, but writing an unchanged text back is the identity, so
restoring every text is the same function). -/
def restoreOriginalText (original sub : AnnObject) : AnnObject :=
  { sub with text := original.text }

/-- `CropAnnotate.exportWithTranslations` (object-list effect): `none`
and no mutation when no translation map is stored for the language;
otherwise the encoded snapshot is the substituted object list and the
live list ends up with every original text restored.  Returns
(encoded snapshot, object list after the call). -/
def exportWithTranslations
    (translations : List (String × List (String × String))) (lang : String)
    (objects : List AnnObject) : Option (List AnnObject) × List AnnObject :=
  match List.lookup lang translations with
  | none => (none, objects)
  | some tmap =>
      let substituted := objects.map (applyTranslation tmap)
      let restored := List.zipWith restoreOriginalText objects substituted
      (some substituted, restored)

/-- Replace the text of the object at index `i` (reference mutation of a
list element, modelled positionally). -/
def setObjText (objs : List AnnObject) (i : Nat) (t : String) :
    List AnnObject :=
  objs.set i { objs.getD i default with text := t }

/-- Start of `ToolManager.startInlineTextEdit`: remember the original
text, blank the object's displayed text for the duration of the edit, set
the editing flag.  Returns (state, originalText). -/
def inlineEditBegin (s : EditorState) (i : Nat) : EditorState × String :=
  ({ s with objects := setObjText s.objects i "", isEditingText := true },
   (s.objects.getD i default).text)

/-- The text stored by the `finish` closure of `startInlineTextEdit`:
`textarea.value.trim() || originalText`. -/
def inlineEditConfirmText (originalText value : String) : String :=
  if jsTrim value = "" then originalText else jsTrim value

/-- The `finish` closure of `startInlineTextEdit`: store the trimmed
value (falling back to the original), save a snapshot exactly when the
raw textarea value differs from the original text, clear the editing
flag. -/
def inlineEditConfirm (s : EditorState) (i : Nat)
    (originalText value : String) : EditorState :=
  let s1 := { s with
      objects := setObjText s.objects i (inlineEditConfirmText originalText value),
      isEditingText := false }
  if value ≠ originalText then saveHistory s1 else s1

/-- The Escape branch of `startInlineTextEdit.onkeydown`: restore the
original text, clear the editing flag, save no snapshot. -/
def inlineEditEscape (s : EditorState) (i : Nat) (originalText : String) :
    EditorState :=
  { s with objects := setObjText s.objects i originalText,
           isEditingText := false }

/-- A JS number: either NaN or a rational value.  (`nan` also stands for
the other falsy non-numbers an absent field can produce.) -/
inductive JSNum where
  | nan
  | val (q : ℚ)
  deriving DecidableEq, Repr

/-- JS truthiness of a number: NaN and 0 are falsy. -/
def jsNumTruthy : JSNum → Bool
  | .nan => false
  | .val q => decide (q ≠ 0)

/-- The JS values `setCropAspectRatio` distinguishes: `null`/`undefined`,
strings, numbers, booleans, and objects carrying `width`/`height`
fields. -/
inductive JSVal where
  | undef
  | null
  | str (s : String)
  | num (n : JSNum)
  | boolean (b : Bool)
  | obj (width height : JSNum)
  deriving DecidableEq, Repr

/-- JS `parseFloat` restricted to plain decimal literals (optional sign,
digits, optional fraction; leading whitespace skipped, trailing junk
ignored); anything else is NaN.  Exponent forms are not modelled — no
claim exercises them. -/
def parseFloatQ (s : String) : JSNum :=
  let cs := s.toList.dropWhile fun c => c == ' ' || c == '\t' || c == '\n'
  let signAndRest : ℚ × List Char :=
    match cs with
    | '-' :: rest => (-1, rest)
    | '+' :: rest => (1, rest)
    | _ => (1, cs)
  let sign := signAndRest.1
  let cs1 := signAndRest.2
  let intPart := cs1.takeWhile Char.isDigit
  let rest := cs1.dropWhile Char.isDigit
  let fracPart :=
    match rest with
    | '.' :: r => r.takeWhile Char.isDigit
    | _ => []
  if intPart = [] ∧ fracPart = [] then .nan
  else
    let digitsVal : List Char → ℚ :=
      fun l => l.foldl (fun a c => a * 10 + ((c.toNat - 48 : Nat) : ℚ)) 0
    .val (sign * (digitsVal intPart + digitsVal fracPart / 10 ^ fracPart.length))

/-- `CropAnnotate.setCropAspectRatio` acting on the stored
`state.cropAspectRatio` (`none` = free): `null`/`'free'` clear it,
`'square'`/`'1:1'` store 1:1, a string splitting into exactly two parts
at `':'` stores the two parsed floats, an object with truthy `width` and
`height` is stored as-is, and any other argument leaves the stored value
unchanged. -/
def setCropAspectRatio (cur : Option (JSNum × JSNum)) (ratio : JSVal) :
    Option (JSNum × JSNum) :=
  if ratio = .null ∨ ratio = .str "free" then none
  else if ratio = .str "square" ∨ ratio = .str "1:1" then
    some (.val 1, .val 1)
  else
    match ratio with
    | .str s =>
        let parts := jsSplit s ':'
        if parts.length = 2 then
          some (parseFloatQ (parts.getD 0 ""), parseFloatQ (parts.getD 1 ""))
        else cur
    | .obj w h => if jsNumTruthy w && jsNumTruthy h then some (w, h) else cur
    | _ => cur

/-- `CropAnnotate.getCropAspectRatio`: returns the stored value. -/
def getCropAspectRatio (cur : Option (JSNum × JSNum)) :
    Option (JSNum × JSNum) := cur

/-- The argument shapes claim C10 lists as accepted by
`setCropAspectRatio` (written from the claim, to delimit its complement). -/
def acceptedAspectArg (v : JSVal) : Bool :=
  match v with
  | .null => true
  | .str s =>
      s == "free" || s == "square" || s == "1:1" ||
        decide ((jsSplit s ':').length = 2)
  | .obj w h => jsNumTruthy w && jsNumTruthy h
  | _ => false

/-- The shape of any committed mutation of the editor (object add, move
or delete, color change, crop, flip, rotate): some replacement of the
object list, image and canvas dimensions, followed by `saveHistory`. -/
structure Mutation where
  objects : List AnnObject
  image : Option CanvasContent
  canvasWidth : ℚ
  canvasHeight : ℚ
  deriving DecidableEq, Repr

/-- Perform one committed mutation. -/
def commitMutation (s : EditorState) (m : Mutation) : EditorState :=
  saveHistory { s with objects := m.objects, image := m.image,
                       canvasWidth := m.canvasWidth,
                       canvasHeight := m.canvasHeight }

/-- Perform a sequence of committed mutations. -/
def runMutations (s : EditorState) (ms : List Mutation) : EditorState :=
  ms.foldl commitMutation s

/-- The history cursor sits on the last entry (the state of affairs after
every commit). -/
def AtEnd (s : EditorState) : Prop :=
  s.historyIndex + 1 = (s.history.length : Int)

/-! Shared concrete states used by the witness theorems. -/

/-- A loaded-editor snapshot used by witnesses. -/
def sampleSnap : Snapshot :=
  { objects := [], imageSrc := some (.fromSrc "img"),
    canvasWidth := 100, canvasHeight := 80 }

/-- A freshly loaded editor state used by witnesses. -/
def sampleState : EditorState :=
  { image := some (.fromSrc "img"), objects := [],
    history := [sampleSnap], historyIndex := 0,
    canvasWidth := 100, canvasHeight := 80,
    containerWidth := 800, containerHeight := 600 }

/-- A crop rectangle whose width is below the floor. -/
def narrowCropRect : AnnObject := { type := .crop, x := 0, y := 0, w := 5, h := 50 }

/-- A crop rectangle above the floor in both dimensions (negative drag
on the x axis). -/
def wideCropRect : AnnObject := { type := .crop, x := 20, y := 10, w := -50, h := 40 }

/-- A valid (wider than 2 pixels) rectangle annotation. -/
def validRectObj : AnnObject := { type := .rect, x := 0, y := 0, w := 30, h := 5 }

/-- A state in the middle of a rectangle drag. -/
def rectDragState : EditorState :=
  { image := some (.fromSrc "img"), currentTool := .rect, objects := [],
    history := [sampleSnap], historyIndex := 0,
    activeObject := some validRectObj, isDrawing := true,
    canvasWidth := 100, canvasHeight := 80,
    containerWidth := 800, containerHeight := 600 }

/-- A state in the middle of a crop drag whose rectangle is above the
size floor. -/
def cropDragState : EditorState :=
  { rectDragState with currentTool := .crop,
                       activeObject := some wideCropRect }

/-- A trivial text-measurement capability for witnesses (the surface's
`measureText` of the claims is abstract). -/
def zeroMeasure : ℚ → String → ℚ := fun _ _ => 0

/-- A one-vertex freehand stroke. -/
def samplePencil : AnnObject := { type := .pencil, points := [⟨0, 0⟩] }

/-- A query point 5 pixels from the stroke vertex. -/
def probePoint : Point := ⟨3, 4⟩

/-- A text annotation with an assigned stable identifier. -/
def helloTextObj : AnnObject :=
  { type := .text, x := 10, y := 20, text := "hello", textId := some "t0" }

/-- A translation store mapping the identifier to the empty string. -/
def emptyTranslationStore : List (String × List (String × String)) :=
  [("es", [("t0", "")])]

/-- A translation store with a real Spanish translation. -/
def spanishTranslationStore : List (String × List (String × String)) :=
  [("es", [("t0", "Hola")])]

/-- An editor state holding one committed text object "hi". -/
def textEditState : EditorState :=
  { image := some (.fromSrc "img"),
    objects := [{ type := .text, x := 5, y := 6, text := "hi" }],
    history := [sampleSnap], historyIndex := 0,
    canvasWidth := 100, canvasHeight := 80,
    containerWidth := 800, containerHeight := 600 }

/-- A later history snapshot holding one rectangle. -/
def sampleSnapTwo : Snapshot :=
  { objects := [{ type := .rect, x := 1, y := 2, w := 30, h := 20 }],
    imageSrc := some (.fromSrc "img"),
    canvasWidth := 100, canvasHeight := 80 }

/-- An editor state with a two-entry history, cursor on the second. -/
def sampleStateTwo : EditorState :=
  { image := some (.fromSrc "img"),
    objects := [{ type := .rect, x := 1, y := 2, w := 30, h := 20 }],
    history := [sampleSnap, sampleSnapTwo], historyIndex := 1,
    canvasWidth := 100, canvasHeight := 80,
    containerWidth := 800, containerHeight := 600 }

/-- `getD` at the length of the left part of an append picks the pushed
element. -/
theorem getD_append_singleton (l : List α) (a d : α) :
    (l ++ [a]).getD l.length d = a := by
  rw [List.getD_append_right _ _ _ _ le_rfl]
  simp

/-- C1: committing a snapshot while the cursor is anywhere in the history
first truncates every entry strictly after the cursor, then appends the
snapshot with the cursor advanced to it, so `canRedo` is false
immediately after any commit. -/
theorem c1_commit_truncates_and_kills_redo (s : EditorState)
    (h1 : -1 ≤ s.historyIndex)
    (h2 : s.historyIndex < (s.history.length : Int)) :
    (saveHistory s).history =
      s.history.take (s.historyIndex + 1).toNat ++ [mkSnapshot s] ∧
    (saveHistory s).historyIndex = s.historyIndex + 1 ∧
    (saveHistory s).history.getD (s.historyIndex + 1).toNat default =
      mkSnapshot s ∧
    canRedo (saveHistory s) = false := by
  have e : jsSliceTo s.history (s.historyIndex + 1) =
      s.history.take (s.historyIndex + 1).toNat := by
    unfold jsSliceTo
    rw [if_pos (by omega)]
  have hlen : (s.history.take (s.historyIndex + 1).toNat).length =
      (s.historyIndex + 1).toNat := by
    rw [List.length_take]
    omega
  refine ⟨by simp [saveHistory, e], rfl, ?_, ?_⟩
  · show (jsSliceTo s.history (s.historyIndex + 1) ++
      [mkSnapshot s]).getD (s.historyIndex + 1).toNat default = mkSnapshot s
    rw [e, List.getD_append_right _ _ _ _ (le_of_eq hlen), hlen]
    simp [List.getD]
  · show decide (s.historyIndex + 1 <
      (((jsSliceTo s.history (s.historyIndex + 1) ++ [mkSnapshot s]).length : Int) - 1)) = false
    rw [e]
    simp only [List.length_append, List.length_take, List.length_singleton]
    rw [decide_eq_false_iff_not]
    omega

/-- C1 witness: a concrete commit from a loaded one-entry history. -/
theorem c1_commit_witness :
    (-1 ≤ sampleState.historyIndex) ∧
    (sampleState.historyIndex < (sampleState.history.length : Int)) ∧
    canRedo (saveHistory sampleState) = false :=
  ⟨by decide, by decide,
    (c1_commit_truncates_and_kills_redo sampleState (by decide) (by decide)).2.2.2⟩

/-- C3: a crop whose normalized extent is below the 10-pixel floor in
either dimension leaves the entire editor state unchanged; a crop at or
above the floor in both dimensions replaces the image with the extracted
region, clears all objects, resizes the surface to the normalized
extents, and appends exactly one history entry (after the usual
truncation at the cursor). -/
theorem c3_crop_minimum_floor (s : EditorState) (rect : AnnObject) :
    ((|rect.w| < 10 ∨ |rect.h| < 10) → crop s rect = s) ∧
    (10 ≤ |rect.w| → 10 ≤ |rect.h| →
      (crop s rect).image = some (CanvasContent.cropOf (s.image.getD .blank)
          s.objects s.canvasWidth s.canvasHeight (cropNormX rect)
          (cropNormY rect) |rect.w| |rect.h|) ∧
      (crop s rect).objects = [] ∧
      (crop s rect).canvasWidth = |rect.w| ∧
      (crop s rect).canvasHeight = |rect.h| ∧
      (crop s rect).history = jsSliceTo s.history (s.historyIndex + 1) ++
        [{ objects := [], imageSrc := some (CanvasContent.cropOf
            (s.image.getD .blank) s.objects s.canvasWidth s.canvasHeight
            (cropNormX rect) (cropNormY rect) |rect.w| |rect.h|),
           canvasWidth := |rect.w|, canvasHeight := |rect.h| }] ∧
      (crop s rect).historyIndex = s.historyIndex + 1 ∧
      (s.historyIndex + 1 = (s.history.length : Int) →
        (crop s rect).history.length = s.history.length + 1)) := by
  have hcrop : crop s rect =
      if abs rect.w < 10 ∨ abs rect.h < 10 then s
      else
        saveHistory (zoomToFitState
          { s with
              image := some (CanvasContent.cropOf (s.image.getD .blank)
                s.objects s.canvasWidth s.canvasHeight (cropNormX rect)
                (cropNormY rect) (abs rect.w) (abs rect.h)),
              objects := [],
              canvasWidth := abs rect.w,
              canvasHeight := abs rect.h }) := rfl
  constructor
  · intro h
    rw [hcrop, if_pos h]
  · intro hw hh
    have hcond : ¬(|rect.w| < 10 ∨ |rect.h| < 10) := by
      push_neg
      exact ⟨hw, hh⟩
    rw [hcrop, if_neg hcond]
    refine ⟨rfl, rfl, rfl, rfl, rfl, rfl, ?_⟩
    intro hend
    have h0 : 0 ≤ s.historyIndex + 1 := by
      rw [hend]
      exact Int.natCast_nonneg _
    show (jsSliceTo s.history (s.historyIndex + 1) ++ _).length =
      s.history.length + 1
    unfold jsSliceTo
    rw [if_pos h0]
    simp only [List.length_append, List.length_take, List.length_singleton]
    omega

/-- C3 witness: a 5-pixel-wide crop is a silent no-op; a 50×40 crop
clears the objects and appends one history entry. -/
theorem c3_crop_witness :
    (abs narrowCropRect.w < 10 ∨ abs narrowCropRect.h < 10) ∧
    crop sampleState narrowCropRect = sampleState ∧
    (crop sampleState wideCropRect).objects = [] ∧
    (crop sampleState wideCropRect).history.length =
      sampleState.history.length + 1 :=
  ⟨by decide,
   (c3_crop_minimum_floor sampleState narrowCropRect).1 (by decide),
   ((c3_crop_minimum_floor sampleState wideCropRect).2 (by decide) (by decide)).2.1,
   ((c3_crop_minimum_floor sampleState wideCropRect).2 (by decide) (by decide)).2.2.2.2.2.2
     (by decide)⟩

/-- The stored level after `setZoom` is always the clamped request. -/
theorem setZoom_fst (current level : ℚ) :
    (setZoom current level).1 = clampZoom level := by
  simp only [setZoom]
  split_ifs with h
  · rfl
  · push_neg at h
    exact h.symm

/-- C9: `setZoom` stores the input clamped to [0.1, 5.0]; `zoomIn` and
`zoomOut` step by ±0.25 and clamp; `setZoom 10` yields 5, `setZoom 0.001`
yields 0.1, three `zoomIn` calls from 1.0 yield 1.75; the zoom-change
callback fires with the new level exactly when the clamped value differs
from the prior level. -/
theorem c9_zoom_clamp_step_callback :
    (∀ current level : ℚ,
      (setZoom current level).1 = max (1/10) (min 5 level)) ∧
    (∀ current : ℚ, (zoomIn current).1 = clampZoom (current + 1/4)) ∧
    (∀ current : ℚ, (zoomOut current).1 = clampZoom (current - 1/4)) ∧
    (∀ current : ℚ, (setZoom current 10).1 = 5) ∧
    (∀ current : ℚ, (setZoom current (1/1000)).1 = 1/10) ∧
    (zoomIn (zoomIn (zoomIn 1).1).1).1 = 7/4 ∧
    (∀ current level : ℚ,
      (setZoom current level).2 =
        if clampZoom level ≠ current then some (clampZoom level) else none) := by
  have hz1 : (zoomIn 1).1 = 5/4 := by
    rw [zoomIn, setZoom_fst, clampZoom, minZoom, maxZoom]
    rw [show (1 : ℚ) + 1/4 = 5/4 by norm_num]
    rw [min_eq_right (by norm_num), max_eq_right (by norm_num)]
  have hz2 : (zoomIn (5/4)).1 = 3/2 := by
    rw [zoomIn, setZoom_fst, clampZoom, minZoom, maxZoom]
    rw [show (5 : ℚ)/4 + 1/4 = 3/2 by norm_num]
    rw [min_eq_right (by norm_num), max_eq_right (by norm_num)]
  have hz3 : (zoomIn (3/2)).1 = 7/4 := by
    rw [zoomIn, setZoom_fst, clampZoom, minZoom, maxZoom]
    rw [show (3 : ℚ)/2 + 1/4 = 7/4 by norm_num]
    rw [min_eq_right (by norm_num), max_eq_right (by norm_num)]
  refine ⟨?_, ?_, ?_, ?_, ?_, ?_, ?_⟩
  · intro c l
    rw [setZoom_fst]
    rfl
  · intro c
    exact setZoom_fst c (c + 1/4)
  · intro c
    exact setZoom_fst c (c - 1/4)
  · intro c
    rw [setZoom_fst, clampZoom, minZoom, maxZoom]
    rw [min_eq_left (by norm_num), max_eq_right (by norm_num)]
  · intro c
    rw [setZoom_fst, clampZoom, minZoom, maxZoom]
    rw [min_eq_right (by norm_num), max_eq_left (by norm_num)]
  · rw [hz1, hz2, hz3]
  · intro c l
    simp only [setZoom]
    split_ifs with h
    · rfl
    · rfl

/-- C10: any argument to `setCropAspectRatio` matching none of the
accepted shapes (null, 'free', 'square', '1:1', a string with exactly one
':' separating two parts, an object with truthy width and height) leaves
the stored crop aspect ratio unchanged, and `getCropAspectRatio` returns
the same value as before the call. -/
theorem c10_set_aspect_rejects_unmatched (cur : Option (JSNum × JSNum))
    (v : JSVal) (h : acceptedAspectArg v = false) :
    setCropAspectRatio cur v = cur ∧
    getCropAspectRatio (setCropAspectRatio cur v) = getCropAspectRatio cur := by
  have hset : setCropAspectRatio cur v = cur := by
    cases v with
    | undef => rfl
    | null => simp [acceptedAspectArg] at h
    | str s =>
        simp only [acceptedAspectArg, Bool.or_eq_false_iff, beq_eq_false_iff_ne,
          ne_eq, decide_eq_false_iff_not] at h
        obtain ⟨⟨⟨hfree, hsq⟩, h11⟩, hsplit⟩ := h
        unfold setCropAspectRatio
        rw [if_neg, if_neg]
        · simp only
          rw [if_neg hsplit]
        · simp [hsq, h11]
        · simp [hfree]
    | num n => rfl
    | boolean b => rfl
    | obj w hgt =>
        simp only [acceptedAspectArg, Bool.and_eq_false_iff] at h
        unfold setCropAspectRatio
        rw [if_neg (by simp), if_neg (by simp)]
        simp only
        rw [if_neg]
        simp only [Bool.and_eq_true, not_and]
        intro hw hh
        rcases h with h | h
        · rw [hw] at h
          exact absurd h (by simp)
        · rw [hh] at h
          exact absurd h (by simp)
  exact ⟨hset, by rw [getCropAspectRatio, getCropAspectRatio, hset]⟩

/-- C10 witness: a three-part ratio string leaves a stored 2:3 ratio
unchanged. -/
theorem c10_set_aspect_witness :
    acceptedAspectArg (.str "a:b:c") = false ∧
    setCropAspectRatio (some (.val 2, .val 3)) (.str "a:b:c") =
      some (.val 2, .val 3) :=
  ⟨by decide,
   (c10_set_aspect_rejects_unmatched (some (.val 2, .val 3)) (.str "a:b:c")
     (by decide)).1⟩

/-- Field-level description of `restoreFromHistory`: the cursor and the
history are untouched; objects come from the snapshot under the cursor;
the image is replaced only when the snapshot carries one. -/
theorem restoreFromHistory_fields (s : EditorState) :
    (restoreFromHistory s).historyIndex = s.historyIndex ∧
    (restoreFromHistory s).history = s.history ∧
    (restoreFromHistory s).objects =
      (s.history.getD s.historyIndex.toNat default).objects ∧
    (∀ c, (s.history.getD s.historyIndex.toNat default).imageSrc = some c →
      (restoreFromHistory s).image = some c) ∧
    ((s.history.getD s.historyIndex.toNat default).imageSrc = none →
      (restoreFromHistory s).image = s.image) ∧
    (restoreFromHistory s).selectedObject = none := by
  cases hsrc : (s.history.getD s.historyIndex.toNat default).imageSrc with
  | none =>
      simp only [restoreFromHistory, hsrc, zoomToFitState]
      refine ⟨trivial, trivial, trivial, ?_, fun _ => trivial, trivial⟩
      intro c hc
      cases hc
  | some src =>
      simp only [restoreFromHistory, hsrc, zoomToFitState]
      refine ⟨trivial, trivial, trivial, fun c hc => hc, ?_, trivial⟩
      intro hc
      cases hc

/-- `undo` from a positive cursor: decrement and restore. -/
theorem undo_of_pos (s : EditorState) (h : 0 < s.historyIndex) :
    (undo s).historyIndex = s.historyIndex - 1 ∧
    (undo s).history = s.history ∧
    (undo s).objects =
      (s.history.getD (s.historyIndex - 1).toNat default).objects := by
  unfold undo
  rw [if_pos h]
  obtain ⟨h1, h2, h3, _, _, _⟩ :=
    restoreFromHistory_fields { s with historyIndex := s.historyIndex - 1 }
  exact ⟨h1, h2, h3⟩

/-- `redo` from a cursor strictly before the last entry: increment and
restore. -/
theorem redo_of_lt (s : EditorState)
    (h : s.historyIndex < (s.history.length : Int) - 1) :
    (redo s).historyIndex = s.historyIndex + 1 ∧
    (redo s).history = s.history ∧
    (redo s).objects =
      (s.history.getD (s.historyIndex + 1).toNat default).objects ∧
    (∀ c, (s.history.getD (s.historyIndex + 1).toNat default).imageSrc =
        some c → (redo s).image = some c) := by
  unfold redo
  rw [if_pos h]
  obtain ⟨h1, h2, h3, h4, _, _⟩ :=
    restoreFromHistory_fields { s with historyIndex := s.historyIndex + 1 }
  exact ⟨h1, h2, h3, h4⟩

/-- A commit from a cursor at the end of the history appends the snapshot
without truncating anything. -/
theorem commitMutation_atEnd (s : EditorState) (m : Mutation)
    (h : AtEnd s) :
    (commitMutation s m).history = s.history ++
      [{ objects := m.objects, imageSrc := m.image,
         canvasWidth := m.canvasWidth, canvasHeight := m.canvasHeight }] ∧
    AtEnd (commitMutation s m) ∧
    (commitMutation s m).historyIndex = s.historyIndex + 1 ∧
    (commitMutation s m).objects = m.objects := by
  unfold AtEnd at *
  have h0 : 0 ≤ s.historyIndex + 1 := by omega
  have htake : jsSliceTo s.history (s.historyIndex + 1) = s.history := by
    unfold jsSliceTo
    rw [if_pos h0]
    exact List.take_of_length_le (by omega)
  unfold commitMutation saveHistory mkSnapshot
  refine ⟨?_, ?_, rfl, rfl⟩
  · show jsSliceTo s.history (s.historyIndex + 1) ++ _ = _
    rw [htake]
  · show s.historyIndex + 1 + 1 =
      ((jsSliceTo s.history (s.historyIndex + 1) ++ _).length : Int)
    rw [htake]
    simp only [List.length_append, List.length_singleton]
    omega

/-- Running a mutation sequence from an at-end state keeps the cursor at
the end, advances it by the number of mutations, and never touches the
first history entry. -/
theorem runMutations_spec (ms : List Mutation) :
    ∀ s : EditorState, AtEnd s → 1 ≤ s.history.length →
      AtEnd (runMutations s ms) ∧
      1 ≤ (runMutations s ms).history.length ∧
      (runMutations s ms).historyIndex = s.historyIndex + ms.length ∧
      (runMutations s ms).history.getD 0 default =
        s.history.getD 0 default := by
  induction ms with
  | nil =>
      intro s h hlen
      exact ⟨h, hlen, by simp [runMutations], rfl⟩
  | cons m rest ih =>
      intro s h hlen
      obtain ⟨hh, he, hi, ho⟩ := commitMutation_atEnd s m h
      have hlen2 : 1 ≤ (commitMutation s m).history.length := by
        rw [hh]
        simp only [List.length_append, List.length_singleton]
        omega
      have hstep : runMutations s (m :: rest) =
          runMutations (commitMutation s m) rest := rfl
      obtain ⟨g1, g2, g3, g4⟩ := ih (commitMutation s m) he hlen2
      rw [hstep]
      refine ⟨g1, g2, ?_, ?_⟩
      · rw [g3, hi]
        simp only [List.length_cons]
        omega
      · rw [g4, hh, List.getD_append _ _ _ _ (by omega)]

/-- Undoing `n` times from a cursor at position `n` lands on the first
entry with the history untouched; when at least one undo happens, the
objects are those of the first entry. -/
theorem undoTimes_run (n : Nat) :
    ∀ s : EditorState, s.historyIndex = (n : Int) → n < s.history.length →
      (undoTimes n s).historyIndex = 0 ∧
      (undoTimes n s).history = s.history ∧
      (0 < n → (undoTimes n s).objects =
        (s.history.getD 0 default).objects) ∧
      (n = 0 → undoTimes n s = s) := by
  induction n with
  | zero =>
      intro s hidx _
      exact ⟨hidx, rfl, by omega, fun _ => rfl⟩
  | succ k ih =>
      intro s hidx hlt
      have hpos : 0 < s.historyIndex := by omega
      obtain ⟨u1, u2, u3⟩ := undo_of_pos s hpos
      have hidx2 : (undo s).historyIndex = (k : Int) := by
        rw [u1, hidx]
        omega
      have hlt2 : k < (undo s).history.length := by
        rw [u2]
        omega
      have hstep : undoTimes (k + 1) s = undoTimes k (undo s) := rfl
      obtain ⟨g1, g2, g3, g4⟩ := ih (undo s) hidx2 hlt2
      rw [hstep]
      refine ⟨g1, by rw [g2, u2], fun _ => ?_, by omega⟩
      rcases Nat.eq_zero_or_pos k with hk | hk
      · rw [g4 hk, u3]
        have hz : (s.historyIndex - 1).toNat = 0 := by omega
        rw [hz]
      · rw [g3 hk, u2]

/-- `loadImage` produces an empty object list and a one-entry history
with the cursor on it. -/
theorem loadImage_spec (s : EditorState) (img : CanvasContent) (iw ih : ℚ) :
    (loadImage s img iw ih).objects = [] ∧
    (loadImage s img iw ih).history =
      [{ objects := [], imageSrc := some img,
         canvasWidth := iw, canvasHeight := ih }] ∧
    (loadImage s img iw ih).historyIndex = 0 := by
  exact ⟨rfl, rfl, rfl⟩

/-- C2: after an initial load, undoing as many times as there were
committed mutations restores the (empty) initial object list and makes
`canUndo` false; `undo` is a no-op on the first entry and `redo` on the
last; `redo` immediately after an effective `undo` restores the object
list and the image reference of the pre-undo history entry. -/
theorem c2_undo_redo_algebra :
    (∀ (s : EditorState) (img : CanvasContent) (iw ih : ℚ)
        (ms : List Mutation),
      (undoTimes ms.length (runMutations (loadImage s img iw ih) ms)).objects
        = (loadImage s img iw ih).objects ∧
      (loadImage s img iw ih).objects = [] ∧
      canUndo (undoTimes ms.length (runMutations (loadImage s img iw ih) ms))
        = false) ∧
    (∀ s : EditorState, s.historyIndex = 0 → undo s = s) ∧
    (∀ s : EditorState, s.historyIndex = (s.history.length : Int) - 1 →
      redo s = s) ∧
    (∀ s : EditorState, 0 < s.historyIndex →
      s.historyIndex < (s.history.length : Int) →
      (redo (undo s)).historyIndex = s.historyIndex ∧
      (redo (undo s)).objects =
        (s.history.getD s.historyIndex.toNat default).objects ∧
      (∀ c, (s.history.getD s.historyIndex.toNat default).imageSrc = some c →
        (redo (undo s)).image = some c)) := by
  refine ⟨?_, ?_, ?_, ?_⟩
  · intro s img iw ih ms
    obtain ⟨l1, l2, l3⟩ := loadImage_spec s img iw ih
    have hend : AtEnd (loadImage s img iw ih) := by
      unfold AtEnd
      rw [l3, l2]
      simp
    have hlen : 1 ≤ (loadImage s img iw ih).history.length := by
      rw [l2]
      simp
    obtain ⟨r1, r2, r3, r4⟩ := runMutations_spec ms _ hend hlen
    have hidxN : (runMutations (loadImage s img iw ih) ms).historyIndex =
        (ms.length : Int) := by
      rw [r3, l3]
      omega
    have hlenN : ms.length <
        (runMutations (loadImage s img iw ih) ms).history.length := by
      unfold AtEnd at r1
      omega
    obtain ⟨q1, q2, q3, q4⟩ := undoTimes_run ms.length _ hidxN hlenN
    refine ⟨?_, l1, ?_⟩
    · rcases Nat.eq_zero_or_pos ms.length with h0 | hpos
      · have hms : ms = [] := List.length_eq_zero.mp h0
        subst hms
        rfl
      · rw [q3 hpos, r4, l2, l1]
        rfl
    · unfold canUndo
      rw [q1]
      rfl
  · intro s h
    unfold undo
    rw [if_neg (by omega)]
  · intro s h
    unfold redo
    rw [if_neg (by omega)]
  · intro s h1 h2
    obtain ⟨u1, u2, u3⟩ := undo_of_pos s h1
    have hcond : (undo s).historyIndex < ((undo s).history.length : Int) - 1 := by
      rw [u1, u2]
      omega
    obtain ⟨r1, r2, r3, r4⟩ := redo_of_lt (undo s) hcond
    have hplus : (undo s).historyIndex + 1 = s.historyIndex := by
      rw [u1]
      omega
    have hentry : (undo s).history.getD
        ((undo s).historyIndex + 1).toNat default =
        s.history.getD s.historyIndex.toNat default := by
      rw [u2, hplus]
    refine ⟨?_, ?_, ?_⟩
    · rw [r1, hplus]
    · rw [r3, hentry]
    · intro c hc
      exact r4 c (by rw [hentry]; exact hc)

/-- C2 witness: on a freshly loaded state undo is a no-op; on a
two-entry history with the cursor on the second entry, redo after undo
puts the cursor back. -/
theorem c2_undo_redo_witness :
    sampleState.historyIndex = 0 ∧
    undo sampleState = sampleState ∧
    0 < sampleStateTwo.historyIndex ∧
    (redo (undo sampleStateTwo)).historyIndex = sampleStateTwo.historyIndex :=
  ⟨by decide,
   c2_undo_redo_algebra.2.1 sampleState (by decide),
   by decide,
   (c2_undo_redo_algebra.2.2.2 sampleStateTwo (by decide) (by decide)).1⟩

/-- `Math.sign(x || 1)` is the sign of `x`, with 1 for a zero delta. -/
theorem mathSign_orOne (x : ℚ) :
    mathSign (orOne x) = if x = 0 then 1 else mathSign x := by
  unfold orOne
  split_ifs with h
  · show mathSign 1 = 1
    unfold mathSign
    rw [if_pos one_pos]
  · rfl

/-- `Math.sign(x || 1)` is a unit. -/
theorem abs_mathSign_orOne (x : ℚ) : |mathSign (orOne x)| = 1 := by
  rw [mathSign_orOne]
  split_ifs with h
  · norm_num
  · unfold mathSign
    rcases lt_trichotomy 0 x with hx | hx | hx
    · rw [if_pos hx]
      norm_num
    · exact absurd hx.symm h
    · rw [if_neg (not_lt.mpr (le_of_lt hx)), if_pos hx]
      norm_num

/-- Scaling by a positive factor preserves `Math.sign`. -/
theorem mathSign_mul_pos (c u : ℚ) (hc : 0 < c) :
    mathSign (c * u) = mathSign u := by
  unfold mathSign
  rcases lt_trichotomy 0 u with h | h | h
  · rw [if_pos h, if_pos (mul_pos hc h)]
  · rw [← h, mul_zero]
  · have h1 : c * u < 0 := mul_neg_of_pos_of_neg hc h
    rw [if_neg (not_lt.mpr (le_of_lt h1)), if_pos h1,
        if_neg (not_lt.mpr (le_of_lt h)), if_pos h]

/-- `Math.sign(x || 1)` takes only the values 1 and -1. -/
theorem mathSign_orOne_cases (x : ℚ) :
    mathSign (orOne x) = 1 ∨ mathSign (orOne x) = -1 := by
  rw [mathSign_orOne]
  split_ifs with h
  · left
    rfl
  · rcases lt_trichotomy 0 x with hx | hx | hx
    · left
      unfold mathSign
      rw [if_pos hx]
    · exact absurd hx.symm h
    · right
      unfold mathSign
      rw [if_neg (not_lt.mpr (le_of_lt hx)), if_pos hx]

/-- `Math.sign` is the identity on the unit values of
`Math.sign(x || 1)`. -/
theorem mathSign_mathSign_orOne (x : ℚ) :
    mathSign (mathSign (orOne x)) = mathSign (orOne x) := by
  rcases mathSign_orOne_cases x with h | h <;> rw [h] <;> unfold mathSign
  · rw [if_pos one_pos]
  · rw [if_neg (by norm_num), if_pos (by norm_num)]

/-- C4 counterexample: with ratio 16:9 and raw deltas dx = 0, dy = 0 the
constrained deltas are (0, 0), so neither |w|/|h| = 16/9 nor the claimed
unit signs hold — the claim as stated fails at a zero-displacement
pointer move. -/
theorem c4_counterexample :
    ¬(|(constrainCropDelta 16 9 0 0).1| / |(constrainCropDelta 16 9 0 0).2| =
        16 / 9 ∧
      mathSign (constrainCropDelta 16 9 0 0).1 = 1 ∧
      mathSign (constrainCropDelta 16 9 0 0).2 = 1) := by
  have hval : constrainCropDelta 16 9 0 0 = (0, 0) := by
    unfold constrainCropDelta
    norm_num
  rw [hval]
  intro h
  obtain ⟨h1, h2, h3⟩ := h
  unfold mathSign at h2
  norm_num at h2

/-- The concrete 16:9 drag of the spec example: dx = 200 dominates, so
the height is re-derived as 112.5. -/
theorem constrain_16_9_example :
    constrainCropDelta 16 9 200 50 = (200, 225/2) := by
  have h200 : |(200 : ℚ)| = 200 := abs_of_pos (by norm_num)
  have h50 : |(50 : ℚ)| = 50 := abs_of_pos (by norm_num)
  have hor : orOne (50 : ℚ) = 50 := by
    unfold orOne
    norm_num
  have hsg : mathSign (50 : ℚ) = 1 := by
    unfold mathSign
    norm_num
  simp only [constrainCropDelta]
  rw [h200, h50, if_pos (by norm_num : ((50 : ℚ) < 200 / (16 / 9))), hor, hsg]
  norm_num

/-- C4 (amended): for a positive aspect-ratio constraint and raw drag
deltas that are not both zero, the constrained rectangle's deltas satisfy
|w|/|h| = width/height exactly (equivalently |w|·height = |h|·width), the
sign of each delta is the sign of the corresponding raw delta (1 when the
raw delta is zero); ratio 16/9 with dx = 200, dy = 50 yields
w = 200, h = 112.5. -/
theorem c4_aspect_constraint_amended :
    (∀ a b dx dy : ℚ, 0 < a → 0 < b → ¬(dx = 0 ∧ dy = 0) →
      |(constrainCropDelta a b dx dy).1| * b =
        |(constrainCropDelta a b dx dy).2| * a ∧
      |(constrainCropDelta a b dx dy).1| /
        |(constrainCropDelta a b dx dy).2| = a / b ∧
      mathSign (constrainCropDelta a b dx dy).1 =
        (if dx = 0 then 1 else mathSign dx) ∧
      mathSign (constrainCropDelta a b dx dy).2 =
        (if dy = 0 then 1 else mathSign dy)) ∧
    constrainCropDelta 16 9 200 50 = (200, 225/2) := by
  refine ⟨?_, constrain_16_9_example⟩
  intro a b dx dy ha hb hne
  have ht : 0 < a / b := div_pos ha hb
  have ha' : a ≠ 0 := ne_of_gt ha
  have hb' : b ≠ 0 := ne_of_gt hb
  by_cases H : |dx| / (a / b) > |dy|
  · have hcc : constrainCropDelta a b dx dy =
        (dx, |dx| / (a / b) * mathSign (orOne dy)) := by
      unfold constrainCropDelta
      rw [if_pos H]
    have hdxpos : 0 < |dx| := by
      have h0 : 0 < |dx| / (a / b) := lt_of_le_of_lt (abs_nonneg dy) H
      by_contra hc
      push_neg at hc
      have hz : |dx| = 0 := le_antisymm hc (abs_nonneg dx)
      rw [hz, zero_div] at h0
      exact lt_irrefl 0 h0
    have hdx : dx ≠ 0 := fun h => by
      rw [h, abs_zero] at hdxpos
      exact lt_irrefl 0 hdxpos
    have habs1 : |(constrainCropDelta a b dx dy).1| = |dx| := by
      rw [hcc]
    have habs2 : |(constrainCropDelta a b dx dy).2| = |dx| / (a / b) := by
      simp only [hcc]
      rw [abs_mul, abs_mathSign_orOne, mul_one,
          abs_of_pos (div_pos hdxpos ht)]
    refine ⟨?_, ?_, ?_, ?_⟩
    · rw [habs1, habs2]
      field_simp
    · rw [habs1, habs2]
      rw [div_div_eq_mul_div, mul_comm, mul_div_assoc,
          div_self (ne_of_gt hdxpos), mul_one]
    · simp only [hcc]
      rw [if_neg hdx]
    · simp only [hcc]
      rw [mathSign_mul_pos _ _ (div_pos hdxpos ht), mathSign_mathSign_orOne,
          mathSign_orOne]
  · push_neg at H
    have hcc : constrainCropDelta a b dx dy =
        (|dy| * (a / b) * mathSign (orOne dx), dy) := by
      unfold constrainCropDelta
      rw [if_neg (not_lt.mpr H)]
    have hdy : dy ≠ 0 := by
      intro h0
      apply hne
      refine ⟨?_, h0⟩
      rw [h0, abs_zero] at H
      have h2 : 0 ≤ |dx| / (a / b) := div_nonneg (abs_nonneg dx) (le_of_lt ht)
      have h3 : |dx| / (a / b) = 0 := le_antisymm H h2
      have h4 : |dx| = 0 := by
        by_contra hc
        have h5 : 0 < |dx| := (abs_nonneg dx).lt_of_ne (Ne.symm hc)
        exact absurd h3 (ne_of_gt (div_pos h5 ht))
      exact abs_eq_zero.mp h4
    have hdypos : 0 < |dy| := abs_pos.mpr hdy
    have habs1 : |(constrainCropDelta a b dx dy).1| = |dy| * (a / b) := by
      simp only [hcc]
      rw [abs_mul, abs_mathSign_orOne, mul_one,
          abs_of_pos (mul_pos hdypos ht)]
    have habs2 : |(constrainCropDelta a b dx dy).2| = |dy| := by
      rw [hcc]
    refine ⟨?_, ?_, ?_, ?_⟩
    · rw [habs1, habs2]
      field_simp
    · rw [habs1, habs2]
      rw [mul_comm, mul_div_assoc, div_self (ne_of_gt hdypos), mul_one]
    · simp only [hcc]
      rw [mathSign_mul_pos _ _ (mul_pos hdypos ht), mathSign_mathSign_orOne,
          mathSign_orOne]
    · simp only [hcc]
      rw [if_neg hdy]

/-- C4 witness: the amended constraint at ratio 16:9 with deltas
(200, 50). -/
theorem c4_aspect_witness :
    (0 : ℚ) < 16 ∧ (0 : ℚ) < 9 ∧ ¬((200 : ℚ) = 0 ∧ (50 : ℚ) = 0) ∧
    |(constrainCropDelta 16 9 200 50).1| * 9 =
      |(constrainCropDelta 16 9 200 50).2| * 16 :=
  ⟨by norm_num, by norm_num, by norm_num,
   (c4_aspect_constraint_amended.1 16 9 200 50 (by norm_num) (by norm_num)
     (by norm_num)).1⟩

/-- Objects after a crop: untouched below the floor, cleared above it. -/
theorem crop_objects (s : EditorState) (rect : AnnObject) :
    (crop s rect).objects =
      if abs rect.w < 10 ∨ abs rect.h < 10 then s.objects else [] := by
  have hcrop : crop s rect =
      if abs rect.w < 10 ∨ abs rect.h < 10 then s
      else
        saveHistory (zoomToFitState
          { s with
              image := some (CanvasContent.cropOf (s.image.getD .blank)
                s.objects s.canvasWidth s.canvasHeight (cropNormX rect)
                (cropNormY rect) (abs rect.w) (abs rect.h)),
              objects := [],
              canvasWidth := abs rect.w,
              canvasHeight := abs rect.h }) := rfl
  rw [hcrop]
  split_ifs with h
  · rfl
  · rfl

/-- `onMouseUp` on a finished drawing drag with a crop-kind active
object hands the rectangle to `crop` and clears the drawing flags. -/
theorem onMouseUp_crop (s : EditorState) (d : Bool) (obj : AnnObject)
    (h1 : ¬ s.currentTool = ToolName.select) (h2 : s.isDrawing = true)
    (h3 : s.activeObject = some obj) (h4 : obj.type = ToolName.crop) :
    onMouseUp s d =
      { crop s obj with isDrawing := false, activeObject := none } := by
  have hd : (s.isDrawing = false) = False := by simp [h2]
  simp only [onMouseUp, if_neg h1, hd, if_false, h3]
  rw [if_pos h4]

/-- `onMouseUp` on a finished drawing drag with a valid non-crop active
object pushes it and saves one snapshot. -/
theorem onMouseUp_push (s : EditorState) (d : Bool) (obj : AnnObject)
    (h1 : ¬ s.currentTool = ToolName.select) (h2 : s.isDrawing = true)
    (h3 : s.activeObject = some obj) (h4 : ¬ obj.type = ToolName.crop)
    (h5 : isValidObject obj = true) :
    onMouseUp s d =
      { saveHistory { s with objects := s.objects ++ [obj] } with
        isDrawing := false, activeObject := none } := by
  have hd : (s.isDrawing = false) = False := by simp [h2]
  simp only [onMouseUp, if_neg h1, hd, if_false, h3]
  rw [if_neg h4, if_pos h5]

/-- `onMouseUp` on a finished drawing drag with an invalid non-crop
active object only clears the drawing flags. -/
theorem onMouseUp_discard (s : EditorState) (d : Bool) (obj : AnnObject)
    (h1 : ¬ s.currentTool = ToolName.select) (h2 : s.isDrawing = true)
    (h3 : s.activeObject = some obj) (h4 : ¬ obj.type = ToolName.crop)
    (h5 : isValidObject obj = false) :
    onMouseUp s d = { s with isDrawing := false, activeObject := none } := by
  have hd : (s.isDrawing = false) = False := by simp [h2]
  have hv : (isValidObject obj = true) = False := by simp [h5]
  simp only [onMouseUp, if_neg h1, hd, if_false, h3]
  rw [if_neg h4]
  simp only [hv, if_false]

/-- C5 counterexample: a 50×40 crop-kind active object satisfies the
validity predicate (|w| > 2), yet completing its drag commits nothing to
the object list — the "committed iff valid" biconditional fails for the
crop tool. -/
theorem c5_counterexample :
    isValidObject wideCropRect = true ∧
    cropDragState.isDrawing = true ∧
    (onMouseUp cropDragState false).objects = [] := by
  refine ⟨by decide, rfl, ?_⟩
  rw [onMouseUp_crop cropDragState false wideCropRect (by decide) rfl rfl rfl]
  show (crop cropDragState wideCropRect).objects = []
  rw [crop_objects]
  rw [if_neg (by decide)]

/-- C5 (amended): on drag completion a non-crop, non-text active object
is committed together with exactly one history snapshot iff it satisfies
the validity predicate, and an invalid one is discarded silently with no
history entry; the predicate demands ≥ 2 points for pencil strokes and
|w| > 2 or |h| > 2 for the other shapes; a crop-kind active object is
never pushed to the object list (its drag triggers the crop operation
instead); a text object is committed by the text overlay's finish handler
iff its content trims non-empty. -/
theorem c5_commit_validity_amended :
    (∀ (s : EditorState) (d : Bool) (obj : AnnObject),
      s.currentTool ≠ ToolName.select → s.isDrawing = true →
      s.activeObject = some obj → obj.type ≠ ToolName.crop →
      (isValidObject obj = true →
        (onMouseUp s d).objects = s.objects ++ [obj] ∧
        (onMouseUp s d).history =
          jsSliceTo s.history (s.historyIndex + 1) ++
            [{ objects := s.objects ++ [obj], imageSrc := s.image,
               canvasWidth := s.canvasWidth,
               canvasHeight := s.canvasHeight }] ∧
        (onMouseUp s d).isDrawing = false ∧
        (onMouseUp s d).activeObject = none) ∧
      (isValidObject obj = false →
        (onMouseUp s d).objects = s.objects ∧
        (onMouseUp s d).history = s.history ∧
        (onMouseUp s d).isDrawing = false ∧
        (onMouseUp s d).activeObject = none)) ∧
    (∀ obj : AnnObject, obj.type = ToolName.pencil →
      (isValidObject obj = true ↔ 2 ≤ obj.points.length)) ∧
    (∀ obj : AnnObject, obj.type ≠ ToolName.pencil →
      obj.type ≠ ToolName.text →
      (isValidObject obj = true ↔ 2 < |obj.w| ∨ 2 < |obj.h|)) ∧
    (∀ (s : EditorState) (d : Bool) (obj : AnnObject),
      s.currentTool ≠ ToolName.select → s.isDrawing = true →
      s.activeObject = some obj → obj.type = ToolName.crop →
      (onMouseUp s d).objects =
        (if abs obj.w < 10 ∨ abs obj.h < 10 then s.objects else [])) ∧
    (∀ (s : EditorState) (pos : Point) (value : String),
      (jsTrim value ≠ "" →
        (createNewTextFinish s pos value).objects = s.objects ++
          [{ type := ToolName.text, x := pos.x, y := pos.y, text := value,
             color := s.currentColor, fontSize := s.optFontSize }] ∧
        (createNewTextFinish s pos value).history =
          jsSliceTo s.history (s.historyIndex + 1) ++
            [{ objects := s.objects ++
                [{ type := ToolName.text, x := pos.x, y := pos.y,
                   text := value, color := s.currentColor,
                   fontSize := s.optFontSize }],
               imageSrc := s.image, canvasWidth := s.canvasWidth,
               canvasHeight := s.canvasHeight }]) ∧
      (jsTrim value = "" →
        (createNewTextFinish s pos value).objects = s.objects ∧
        (createNewTextFinish s pos value).history = s.history)) := by
  refine ⟨?_, ?_, ?_, ?_, ?_⟩
  · intro s d obj h1 h2 h3 h4
    constructor
    · intro h5
      rw [onMouseUp_push s d obj h1 h2 h3 h4 h5]
      exact ⟨rfl, rfl, rfl, rfl⟩
    · intro h5
      rw [onMouseUp_discard s d obj h1 h2 h3 h4 h5]
      exact ⟨rfl, rfl, rfl, rfl⟩
  · intro obj h
    unfold isValidObject
    rw [if_pos h]
    simp
    omega
  · intro obj h1 h2
    unfold isValidObject
    rw [if_neg h1, if_neg h2]
    simp
  · intro s d obj h1 h2 h3 h4
    rw [onMouseUp_crop s d obj h1 h2 h3 h4]
    show (crop s obj).objects = _
    rw [crop_objects]
  · intro s pos value
    constructor
    · intro h
      unfold createNewTextFinish
      rw [if_pos h]
      exact ⟨rfl, rfl⟩
    · intro h
      unfold createNewTextFinish
      rw [if_neg (by rw [h]; exact fun hc => hc rfl)]
      exact ⟨rfl, rfl⟩

/-- C5 witness: finishing a rectangle drag with a 30×5 rectangle commits
exactly that rectangle. -/
theorem c5_commit_witness :
    rectDragState.currentTool ≠ ToolName.select ∧
    isValidObject validRectObj = true ∧
    (onMouseUp rectDragState false).objects =
      rectDragState.objects ++ [validRectObj] :=
  ⟨by decide, by decide,
   ((c5_commit_validity_amended.1 rectDragState false validRectObj
      (by decide) rfl rfl (by decide)).1 (by decide)).1⟩

/-- C6: object lookup scans the list in reverse insertion order and
returns the first hit (characterized by the empty and append recursions
and by soundness of a `some` result); if every object's containment test
fails the lookup returns none; a query point within the tolerance radius
of any vertex of a freehand stroke hits that stroke, and a hit stroke in
the list makes the lookup succeed; a point strictly outside a box
shape's tolerance-expanded normalized bounding box misses it, as does a
point at or beyond the segment tolerance of an arrow. -/
theorem c6_hit_testing :
    (∀ (measure : ℚ → String → ℚ) (pos : Point),
      findObjectAt measure [] pos = none) ∧
    (∀ (measure : ℚ → String → ℚ) (objs : List AnnObject) (o : AnnObject)
        (pos : Point),
      findObjectAt measure (objs ++ [o]) pos =
        if isPointInObject measure pos o = true then some o
        else findObjectAt measure objs pos) ∧
    (∀ (measure : ℚ → String → ℚ) (objs : List AnnObject) (pos : Point)
        (o : AnnObject),
      findObjectAt measure objs pos = some o →
      o ∈ objs ∧ isPointInObject measure pos o = true) ∧
    (∀ (measure : ℚ → String → ℚ) (objs : List AnnObject) (pos : Point),
      (∀ o ∈ objs, isPointInObject measure pos o = false) →
      findObjectAt measure objs pos = none) ∧
    (∀ (measure : ℚ → String → ℚ) (pos : Point) (stroke : AnnObject)
        (p : Point),
      stroke.type = ToolName.pencil → p ∈ stroke.points →
      (p.x - pos.x)^2 + (p.y - pos.y)^2 < hitPadding^2 →
      isPointInObject measure pos stroke = true) ∧
    (∀ (measure : ℚ → String → ℚ) (objs : List AnnObject) (pos : Point)
        (stroke : AnnObject),
      stroke ∈ objs → isPointInObject measure pos stroke = true →
      (findObjectAt measure objs pos).isSome = true) ∧
    (∀ (measure : ℚ → String → ℚ) (pos : Point) (o : AnnObject),
      o.type ≠ ToolName.pencil → o.type ≠ ToolName.text →
      o.type ≠ ToolName.arrow →
      (pos.x < (if o.w < 0 then o.x + o.w else o.x) - hitPadding ∨
       pos.x > (if o.w < 0 then o.x + o.w else o.x) + |o.w| + hitPadding ∨
       pos.y < (if o.h < 0 then o.y + o.h else o.y) - hitPadding ∨
       pos.y > (if o.h < 0 then o.y + o.h else o.y) + |o.h| + hitPadding) →
      isPointInObject measure pos o = false) ∧
    (∀ (measure : ℚ → String → ℚ) (pos : Point) (o : AnnObject),
      o.type = ToolName.arrow →
      hitPadding^2 ≤ distToSegmentSq pos ⟨o.x, o.y⟩
        ⟨o.x + o.w, o.y + o.h⟩ →
      isPointInObject measure pos o = false) := by
  refine ⟨?_, ?_, ?_, ?_, ?_, ?_, ?_, ?_⟩
  · intro measure pos
    rfl
  · intro measure objs o pos
    unfold findObjectAt
    rw [List.reverse_append]
    simp only [List.reverse_singleton, List.singleton_append]
    by_cases h : isPointInObject measure pos o = true
    · rw [List.find?_cons_of_pos _ h, if_pos h]
    · rw [List.find?_cons_of_neg _ h, if_neg h]
  · intro measure objs pos o h
    exact ⟨List.mem_reverse.1 (List.mem_of_find?_eq_some h),
      List.find?_some h⟩
  · intro measure objs pos h
    unfold findObjectAt
    exact List.find?_eq_none.2 fun x hx => by
      simp [h x (List.mem_reverse.1 hx)]
  · intro measure pos stroke p h1 h2 h3
    unfold isPointInObject
    rw [if_pos h1, List.any_eq_true]
    exact ⟨p, h2, by rw [decide_eq_true_eq]; exact h3⟩
  · intro measure objs pos stroke hmem hhit
    rcases hfind : objs.reverse.find? (isPointInObject measure pos)
      with _ | o
    · exact absurd hhit
        (List.find?_eq_none.1 hfind stroke (List.mem_reverse.2 hmem))
    · unfold findObjectAt
      rw [hfind]
      rfl
  · intro measure pos o h1 h2 h3 hout
    simp only [isPointInObject, if_neg h1, if_neg h2, if_neg h3]
    rw [decide_eq_false_iff_not]
    intro hc
    obtain ⟨c1, c2, c3, c4⟩ := hc
    rcases hout with h | h | h | h
    · linarith
    · linarith
    · linarith
    · linarith
  · intro measure pos o h1 h2
    have hp : o.type ≠ ToolName.pencil := by
      rw [h1]
      exact fun hc => by cases hc
    have ht : o.type ≠ ToolName.text := by
      rw [h1]
      exact fun hc => by cases hc
    simp only [isPointInObject, if_neg hp, if_neg ht, if_pos h1]
    rw [decide_eq_false_iff_not]
    exact not_lt.2 h2

/-- C6 witness: the point (3, 4) is 5 pixels from the stroke vertex
(0, 0), hits the stroke, and lookup in a one-stroke list succeeds. -/
theorem c6_hit_witness :
    samplePencil.type = ToolName.pencil ∧
    ((⟨0, 0⟩ : Point).x - probePoint.x)^2 +
      ((⟨0, 0⟩ : Point).y - probePoint.y)^2 < hitPadding^2 ∧
    isPointInObject zeroMeasure probePoint samplePencil = true ∧
    (findObjectAt zeroMeasure [samplePencil] probePoint).isSome = true :=
  ⟨rfl, by norm_num [probePoint, hitPadding],
   c6_hit_testing.2.2.2.2.1 zeroMeasure probePoint samplePencil ⟨0, 0⟩
     rfl (by decide) (by norm_num [probePoint, hitPadding]),
   c6_hit_testing.2.2.2.2.2.1 zeroMeasure [samplePencil] probePoint
     samplePencil (by decide)
     (c6_hit_testing.2.2.2.2.1 zeroMeasure probePoint samplePencil ⟨0, 0⟩
       rfl (by decide) (by norm_num [probePoint, hitPadding]))⟩

/-- Restoring the remembered original text over a substituted object
recovers the object exactly (substitution only ever changes `text`). -/
theorem restore_applyTranslation (tmap : List (String × String))
    (o : AnnObject) :
    restoreOriginalText o (applyTranslation tmap o) = o := by
  unfold restoreOriginalText applyTranslation
  repeat' split
  all_goals rfl

/-- The restore pass of `exportWithTranslations` is exact. -/
theorem zipWith_restore (tmap : List (String × String))
    (O : List AnnObject) :
    List.zipWith restoreOriginalText O (O.map (applyTranslation tmap)) =
      O := by
  induction O with
  | nil => rfl
  | cons o rest ih =>
      simp only [List.map_cons, List.zipWith_cons_cons,
        restore_applyTranslation, ih]

/-- C7 counterexample: identifier "t0" has a stored mapping (to the
empty string), yet `exportWithTranslations` leaves the text object's
content unsubstituted in the exported snapshot — contradicting
"substitutes the mapped translation for every text object whose stable
identifier has a mapping". -/
theorem c7_counterexample :
    List.lookup "t0" [("t0", "")] = some "" ∧
    helloTextObj.textId = some "t0" ∧
    (exportWithTranslations emptyTranslationStore "es" [helloTextObj]).1 =
      some [helloTextObj] ∧
    helloTextObj.text = "hello" := by
  refine ⟨by decide, rfl, ?_, rfl⟩
  decide

/-- C7 (amended): with no stored map for the language the export returns
none and the object list is untouched; with a stored map the exported
snapshot substitutes exactly the text objects whose assigned identifier
maps to a non-empty translation (all other objects untouched), and after
the call every object — text included — equals its value before the
call. -/
theorem c7_export_translations_amended :
    (∀ (T : List (String × List (String × String))) (lang : String)
        (O : List AnnObject),
      (List.lookup lang T = none →
        exportWithTranslations T lang O = (none, O)) ∧
      (∀ tmap, List.lookup lang T = some tmap →
        (exportWithTranslations T lang O).1 =
          some (O.map (applyTranslation tmap)) ∧
        (exportWithTranslations T lang O).2 = O)) ∧
    (∀ (tmap : List (String × String)) (o : AnnObject),
      (o.type ≠ ToolName.text → applyTranslation tmap o = o) ∧
      (o.textId = none → applyTranslation tmap o = o) ∧
      (∀ tid, o.textId = some tid → List.lookup tid tmap = none →
        applyTranslation tmap o = o) ∧
      (∀ tid, o.textId = some tid → List.lookup tid tmap = some "" →
        applyTranslation tmap o = o) ∧
      (∀ tid tr, o.type = ToolName.text → o.textId = some tid → tid ≠ "" →
        List.lookup tid tmap = some tr → tr ≠ "" →
        applyTranslation tmap o = { o with text := tr })) := by
  constructor
  · intro T lang O
    constructor
    · intro h
      unfold exportWithTranslations
      rw [h]
    · intro tmap h
      unfold exportWithTranslations
      rw [h]
      exact ⟨rfl, zipWith_restore tmap O⟩
  · intro tmap o
    refine ⟨?_, ?_, ?_, ?_, ?_⟩
    · intro h
      unfold applyTranslation
      rw [if_neg h]
    · intro h
      unfold applyTranslation
      by_cases h1 : o.type = ToolName.text
      · rw [if_pos h1]
        simp only [h]
      · rw [if_neg h1]
    · intro tid h2 h3
      unfold applyTranslation
      by_cases h1 : o.type = ToolName.text
      · rw [if_pos h1]
        simp only [h2]
        by_cases h4 : tid ≠ ""
        · rw [if_pos h4]
          simp only [h3]
        · rw [if_neg h4]
      · rw [if_neg h1]
    · intro tid h2 h3
      unfold applyTranslation
      by_cases h1 : o.type = ToolName.text
      · rw [if_pos h1]
        simp only [h2]
        by_cases h4 : tid ≠ ""
        · rw [if_pos h4]
          simp only [h3]
          rw [if_neg (by simp)]
        · rw [if_neg h4]
      · rw [if_neg h1]
    · intro tid tr h1 h2 h3 h4 h5
      unfold applyTranslation
      rw [if_pos h1]
      simp only [h2]
      rw [if_pos h3]
      simp only [h4]
      rw [if_pos h5]

/-- C7 witness: exporting with a stored Spanish map substitutes "Hola"
in the snapshot and leaves the live list equal to its pre-call value. -/
theorem c7_export_witness :
    List.lookup "es" spanishTranslationStore = some [("t0", "Hola")] ∧
    (exportWithTranslations spanishTranslationStore "es" [helloTextObj]).1 =
      some ([helloTextObj].map (applyTranslation [("t0", "Hola")])) ∧
    (exportWithTranslations spanishTranslationStore "es" [helloTextObj]).2 =
      [helloTextObj] :=
  ⟨by decide,
   ((c7_export_translations_amended.1 spanishTranslationStore "es"
      [helloTextObj]).2 [("t0", "Hola")] (by decide)).1,
   ((c7_export_translations_amended.1 spanishTranslationStore "es"
      [helloTextObj]).2 [("t0", "Hola")] (by decide)).2⟩

/-- Reading back the object whose text was just set. -/
theorem getD_setObjText (objs : List AnnObject) (i : Nat) (t : String)
    (h : i < objs.length) :
    (setObjText objs i t).getD i default =
      { objs.getD i default with text := t } := by
  unfold setObjText
  rw [List.getD_eq_getElem _ _ (by simpa using h)]
  simp

/-- Setting the text twice keeps only the second write. -/
theorem setObjText_setObjText (objs : List AnnObject) (i : Nat)
    (a b : String) (h : i < objs.length) :
    setObjText (setObjText objs i a) i b = setObjText objs i b := by
  have e : (setObjText objs i a).getD i default =
      { objs.getD i default with text := a } := getD_setObjText objs i a h
  unfold setObjText at e ⊢
  rw [List.set_set, e]

/-- Writing an element's own value back is the identity. -/
theorem set_getD_self (objs : List AnnObject) (i : Nat)
    (h : i < objs.length) :
    objs.set i (objs.getD i default) = objs := by
  induction objs generalizing i with
  | nil => simp at h
  | cons o rest ih =>
      cases i with
      | zero => rfl
      | succ k =>
          simp only [List.set_cons_succ, List.getD_cons_succ]
          rw [ih k (by simpa using h)]

/-- Restoring the original text over a blanked slot is the identity. -/
theorem setObjText_restore (objs : List AnnObject) (i : Nat)
    (h : i < objs.length) :
    setObjText (setObjText objs i "") i
      ((objs.getD i default).text) = objs := by
  rw [setObjText_setObjText objs i "" _ h]
  unfold setObjText
  exact set_getD_self objs i h

/-- C8 counterexample: editing the text object "hi" and confirming with
the raw value "hi " stores the trimmed text "hi" — identical to the
original, so the text did not actually change — yet a history snapshot
is committed (the code compares the raw textarea value, not the stored
text).  This refutes both "replaces the object's text with the new
value" and "snapshot iff the text actually changed". -/
theorem c8_counterexample :
    (inlineEditBegin textEditState 0).2 = "hi" ∧
    ((inlineEditConfirm (inlineEditBegin textEditState 0).1 0 "hi"
      "hi ").objects.getD 0 default).text = "hi" ∧
    ((inlineEditConfirm (inlineEditBegin textEditState 0).1 0 "hi"
      "hi ").objects.getD 0 default).text ≠ "hi " ∧
    (inlineEditConfirm (inlineEditBegin textEditState 0).1 0 "hi"
      "hi ").history.length = textEditState.history.length + 1 := by
  exact ⟨rfl, by decide, by decide, by decide⟩

/-- C8 (amended): confirming an inline edit stores the trimmed new
value, falling back to the original text when the value trims to empty;
a history snapshot is committed if and only if the raw textarea value
differs from the original text (even when the stored text ends up equal
to the original); Escape restores the original text exactly, commits no
snapshot, and clears the editing flag. -/
theorem c8_inline_edit_amended :
    (∀ (s : EditorState) (i : Nat) (value : String),
      i < s.objects.length →
      ((inlineEditConfirm (inlineEditBegin s i).1 i (inlineEditBegin s i).2
          value).objects.getD i default).text =
        (if jsTrim value = "" then (s.objects.getD i default).text
         else jsTrim value) ∧
      (inlineEditConfirm (inlineEditBegin s i).1 i (inlineEditBegin s i).2
          value).objects =
        setObjText s.objects i
          (inlineEditConfirmText ((s.objects.getD i default).text) value) ∧
      (value ≠ (s.objects.getD i default).text →
        (inlineEditConfirm (inlineEditBegin s i).1 i
            (inlineEditBegin s i).2 value).history =
          jsSliceTo s.history (s.historyIndex + 1) ++
            [{ objects := setObjText s.objects i
                 (inlineEditConfirmText ((s.objects.getD i default).text)
                   value),
               imageSrc := s.image, canvasWidth := s.canvasWidth,
               canvasHeight := s.canvasHeight }]) ∧
      (value = (s.objects.getD i default).text →
        (inlineEditConfirm (inlineEditBegin s i).1 i
            (inlineEditBegin s i).2 value).history = s.history)) ∧
    (∀ (s : EditorState) (i : Nat), i < s.objects.length →
      (inlineEditEscape (inlineEditBegin s i).1 i
          (inlineEditBegin s i).2).objects = s.objects ∧
      (inlineEditEscape (inlineEditBegin s i).1 i
          (inlineEditBegin s i).2).history = s.history ∧
      (inlineEditEscape (inlineEditBegin s i).1 i
          (inlineEditBegin s i).2).isEditingText = false) := by
  constructor
  · intro s i value h
    simp only [inlineEditBegin, inlineEditConfirm]
    by_cases hne : value = (s.objects.getD i default).text
    · rw [if_neg (fun hc => hc hne)]
      refine ⟨?_, ?_, fun hx => absurd hne hx, fun _ => rfl⟩
      · show ((setObjText (setObjText s.objects i "") i
            (inlineEditConfirmText ((s.objects.getD i default).text)
              value)).getD i default).text = _
        rw [setObjText_setObjText s.objects i "" _ h,
            getD_setObjText s.objects i _ h]
        rfl
      · show setObjText (setObjText s.objects i "") i _ = _
        rw [setObjText_setObjText s.objects i "" _ h]
    · rw [if_pos hne]
      refine ⟨?_, ?_, fun _ => ?_, fun heq => absurd heq hne⟩
      · show ((setObjText (setObjText s.objects i "") i
            (inlineEditConfirmText ((s.objects.getD i default).text)
              value)).getD i default).text = _
        rw [setObjText_setObjText s.objects i "" _ h,
            getD_setObjText s.objects i _ h]
        rfl
      · show setObjText (setObjText s.objects i "") i _ = _
        rw [setObjText_setObjText s.objects i "" _ h]
      · show jsSliceTo s.history (s.historyIndex + 1) ++ [mkSnapshot _] = _
        unfold mkSnapshot
        rw [setObjText_setObjText s.objects i "" _ h]
  · intro s i h
    refine ⟨?_, rfl, rfl⟩
    show setObjText (setObjText s.objects i "") i
      ((s.objects.getD i default).text) = s.objects
    exact setObjText_restore s.objects i h

/-- C8 witness: Escape on the "hi" text object restores the object list
unchanged with no history entry. -/
theorem c8_inline_edit_witness :
    0 < textEditState.objects.length ∧
    (inlineEditEscape (inlineEditBegin textEditState 0).1 0
        (inlineEditBegin textEditState 0).2).objects =
      textEditState.objects ∧
    (inlineEditEscape (inlineEditBegin textEditState 0).1 0
        (inlineEditBegin textEditState 0).2).history =
      textEditState.history :=
  ⟨by decide,
   (c8_inline_edit_amended.2 textEditState 0 (by decide)).1,
   (c8_inline_edit_amended.2 textEditState 0 (by decide)).2.1⟩
